import Mathlib

/-!
Verification of the authentication subsystem of the `events` repository
(`internal/service/auth.go`, `internal/repository` and the sqlc SQL in
`query.sql`), as a shallow embedding in Lean.

Conventions of the embedding:
* Go `time.Time` values are modelled as Unix timestamps (`Int`, seconds);
  `pgtype.Timestamptz` with `Valid = false` is `Option.none`.
* Store calls made through `repository.AuthRepository` are modelled as pure
  oracle functions carried by an `AuthEnv`; every store call that `SignIn`
  issues is additionally recorded in an `AuthCall` trace so that claims about
  which collaborators were (not) invoked can be stated.
* `bcrypt.CompareHashAndPassword` is an external library primitive; it is
  modelled as an oracle `bcryptMatch : String -> String -> Bool` (`true`
  exactly when the library reports a match, i.e. returns a nil error).
* Machine integers (`int64` ids, `int32` failed-attempt counters) are
  modelled as `Int`; none of the verified claims exercises overflow.
-/

/-- Authentication constants from `auth.go` (`MaxLoginAttempts = 5`,
`AccountLockoutDuration = 15 * time.Minute`, expressed in seconds). -/
def MaxLoginAttempts : Int := 5

/-- Constant `AccountLockoutDuration = 15 * time.Minute`, in seconds. -/
def AccountLockoutDurationSec : Int := 15 * 60

/-- Constant `VerificationTokenExpiry = 24 * time.Hour`, in seconds. -/
def VerificationTokenExpirySec : Int := 24 * 60 * 60

/-- Constant `MinPasswordLength = 8`. -/
def MinPasswordLength : Nat := 8

/-- Errors returned by the repository layer (`internal/repository/errors.go`):
`ErrNotFound`, or any other underlying store error (carried as a message). -/
inductive RepoError where
  | notFound
  | other (msg : String)
  deriving DecidableEq, Repr

/-- The error taxonomy of `auth.go`: the sentinel error values, validation
errors (`ErrInvalidInput` wrapped with a reason), and store errors wrapped
with operation context by `fmt.Errorf("...: %w", err)`. -/
inductive AuthError where
  | invalidInput (reason : String)
  | invalidCredentials
  | emailNotVerified
  | accountLocked
  | emailExists
  | invalidVerificationCode
  | wrapped (op : String) (cause : RepoError)
  deriving DecidableEq, Repr

/-- Model of `db.User` restricted to the fields the auth service reads or writes. -/
structure User where
  id : Int
  email : String
  firstName : String
  lastName : String
  role : String
  deriving DecidableEq, Repr

/-- Model of `db.AuthCredential` restricted to the fields the auth service reads;
timestamps are `Option Int` (`none` when the `pgtype` value is not Valid). -/
structure AuthCredential where
  userId : Int
  passwordHash : String
  emailVerifiedAt : Option Int
  lastLoginAt : Option Int
  failedLoginAttempts : Int
  lockedUntil : Option Int
  deriving DecidableEq, Repr

/-- Structure `SignInInput` from `auth.go`. -/
structure SignInInput where
  email : String
  password : String
  rememberMe : Bool
  deriving DecidableEq, Repr

/-- Structure `SignUpInput` from `auth.go`. -/
structure SignUpInput where
  email : String
  password : String
  firstName : String
  lastName : String
  deriving DecidableEq, Repr

/-- Structure `AuthResult` from `auth.go`. -/
structure AuthResult where
  user : User
  rememberMe : Bool
  deriving DecidableEq, Repr

/-- Structure `SignUpResult` from `auth.go`. -/
structure SignUpResult where
  user : User
  verificationCode : String
  deriving DecidableEq, Repr

/-- One store/hasher call issued by `SignIn`, for stating which collaborators
a run did or did not invoke. -/
inductive AuthCall where
  | getUser (email : String)
  | getCreds (userId : Int)
  | checkLock (userId : Int)
  | compareHash (hash : String) (password : String)
  | incrementFailed (userId : Int)
  | lockAccount (userId : Int) (lockUntil : Int)
  | updateLastLogin (userId : Int)
  deriving DecidableEq, Repr

/-- The collaborators of the auth service (`repository.AuthRepository`,
`repository.UserRepository`, bcrypt, and the clock), as pure oracles.
The bookkeeping calls (`IncrementFailedAttempts`, `LockAccount`,
`UpdateLastLogin`) return `some e` when the store reports error `e`. -/
structure AuthEnv where
  getUserByEmail : String → Except RepoError User
  getCredentialsByUserID : Int → Except RepoError AuthCredential
  isAccountLocked : Int → Except RepoError Bool
  incrementFailedAttempts : Int → Option RepoError
  lockAccount : Int → Int → Option RepoError
  updateLastLogin : Int → Option RepoError
  createUser : String → String → String → String → Except RepoError User
  createCredentials : Int → String → Except RepoError AuthCredential
  bcryptMatch : String → String → Bool
  bcryptHash : String → Except String String
  now : Int

/-- Model of `strings.TrimSpace`: drop leading and trailing whitespace characters.
(Go trims by `unicode.IsSpace`; this matches it on ASCII input.) -/
def trimChars (l : List Char) : List Char :=
  ((l.dropWhile Char.isWhitespace).reverse.dropWhile Char.isWhitespace).reverse

/-- Model of `strings.TrimSpace` on a `String`. -/
def goTrimSpace (s : String) : String := String.mk (trimChars s.data)

/-- Email normalization used by both `SignUp` and `SignIn`:
`strings.TrimSpace(strings.ToLower(email))`.  (Go lower-cases full Unicode;
`Char.toLower` matches it on ASCII.) -/
def normalizeEmail (s : String) : String :=
  String.mk (trimChars (s.data.map Char.toLower))

/-- Function `SignInInput.Validate` from `auth.go`: email and password non-empty. -/
def SignInInput.validate (i : SignInInput) : Option AuthError :=
  if i.email = "" then some (.invalidInput "email is required")
  else if i.password = "" then some (.invalidInput "password is required")
  else none

/-- Character class `[a-zA-Z0-9._%+-]` of the email regexp's local part. -/
def isEmailLocalChar (c : Char) : Bool :=
  c.isAlphanum || c = '.' || c = '_' || c = '%' || c = '+' || c = '-'

/-- Character class `[a-zA-Z0-9.-]` of the email regexp's domain part. -/
def isEmailDomainChar (c : Char) : Bool :=
  c.isAlphanum || c = '.' || c = '-'

/-- Matcher for the anchored regexp
`^[a-zA-Z0-9._%+-]+@[a-zA-Z0-9.-]+\.[a-zA-Z]\x7b2,\x7d$` used by
`SignUpInput.Validate`.  A string matches iff it has exactly one `@`, a
non-empty local part over the local class, and a domain that decomposes at
its last dot into a non-empty prefix over the domain class and a TLD of at
least two ASCII letters. -/
def emailRegexMatch (s : String) : Bool :=
  match s.data.splitOn '@' with
  | [localPart, domainPart] =>
    let revDomain := domainPart.reverse
    let revTld := revDomain.takeWhile (fun c => c ≠ '.')
    (match revDomain.drop revTld.length with
     | '.' :: revMid =>
       decide (localPart ≠ []) && localPart.all isEmailLocalChar &&
       decide (2 ≤ revTld.length) && revTld.all Char.isAlpha &&
       decide (revMid ≠ []) && revMid.all isEmailDomainChar
     | _ => false)
  | _ => false

/-- Function `SignUpInput.Validate` from `auth.go`: email non-empty and matching the
regexp after trim/lower-case, password non-empty and at least 8 bytes,
names non-empty after trimming. -/
def SignUpInput.validate (i : SignUpInput) : Option AuthError :=
  if i.email = "" then some (.invalidInput "email is required")
  else if ¬ emailRegexMatch (normalizeEmail i.email) then
    some (.invalidInput "invalid email format")
  else if i.password = "" then some (.invalidInput "password is required")
  else if i.password.utf8ByteSize < MinPasswordLength then
    some (.invalidInput "password must be at least 8 characters")
  else if goTrimSpace i.firstName = "" then some (.invalidInput "first name is required")
  else if goTrimSpace i.lastName = "" then some (.invalidInput "last name is required")
  else none

/-- Function `authService.SignIn` from `auth.go`, line by line.  The first component
is the value/error returned to the caller; the second lists the collaborator
calls the run issued, in order.  The results of the best-effort bookkeeping
calls are bound and discarded, exactly as the Go code checks and then
ignores (logs) them. -/
def signIn (env : AuthEnv) (input : SignInInput) :
    Except AuthError AuthResult × List AuthCall :=
  match SignInInput.validate input with
  | some e => (.error e, [])
  | none =>
    let email := normalizeEmail input.email
    match env.getUserByEmail email with
    | .error .notFound => (.error .invalidCredentials, [.getUser email])
    | .error e => (.error (.wrapped "failed to get user" e), [.getUser email])
    | .ok user =>
      match env.getCredentialsByUserID user.id with
      | .error .notFound =>
        (.error .invalidCredentials, [.getUser email, .getCreds user.id])
      | .error e =>
        (.error (.wrapped "failed to get credentials" e),
         [.getUser email, .getCreds user.id])
      | .ok creds =>
        match env.isAccountLocked user.id with
        | .error e =>
          (.error (.wrapped "failed to check account lock status" e),
           [.getUser email, .getCreds user.id, .checkLock user.id])
        | .ok locked =>
          if locked then
            (.error .accountLocked,
             [.getUser email, .getCreds user.id, .checkLock user.id])
          else
            let tr := [AuthCall.getUser email, .getCreds user.id,
                       .checkLock user.id,
                       .compareHash creds.passwordHash input.password]
            if env.bcryptMatch creds.passwordHash input.password then
              if creds.emailVerifiedAt = none then
                (.error .emailNotVerified, tr)
              else
                -- best-effort: a store error here is logged, not returned
                let _ := env.updateLastLogin user.id
                (.ok { user := user, rememberMe := input.rememberMe },
                 tr ++ [.updateLastLogin user.id])
            else
              -- best-effort: a store error here is logged, not returned
              let _ := env.incrementFailedAttempts user.id
              if MaxLoginAttempts ≤ creds.failedLoginAttempts + 1 then
                let lockUntil := env.now + AccountLockoutDurationSec
                -- best-effort: a store error here is logged, not returned
                let _ := env.lockAccount user.id lockUntil
                (.error .accountLocked,
                 tr ++ [.incrementFailed user.id, .lockAccount user.id lockUntil])
              else
                (.error .invalidCredentials, tr ++ [.incrementFailed user.id])

/-- The `CASE` expression of the `IsAccountLocked` sqlc query: locked iff
`locked_until` is set and strictly after `NOW()`. -/
def isAccountLockedQuery (lockedUntil : Option Int) (now : Int) : Bool :=
  match lockedUntil with
  | none => false
  | some t => now < t

/-! ### SHA-256 / HMAC (executable model of Go's `crypto/sha256`, `crypto/hmac`) -/

/-- The constant 2^32, the word modulus of SHA-256. -/
def M32 : Nat := 4294967296

/-- Rotate the 32-bit word `x` right by `n` bit positions. -/
def rotr32 (n x : Nat) : Nat := (x / 2 ^ n + x % 2 ^ n * 2 ^ (32 - n)) % M32

/-- SHA-256 `Ch` function. -/
def shaCh (x y z : Nat) : Nat := (x &&& y) ^^^ ((x ^^^ (M32 - 1)) &&& z)

/-- SHA-256 `Maj` function. -/
def shaMaj (x y z : Nat) : Nat := (x &&& y) ^^^ (x &&& z) ^^^ (y &&& z)

/-- SHA-256 `Σ0`. -/
def bigSigma0 (x : Nat) : Nat := rotr32 2 x ^^^ rotr32 13 x ^^^ rotr32 22 x

/-- SHA-256 `Σ1`. -/
def bigSigma1 (x : Nat) : Nat := rotr32 6 x ^^^ rotr32 11 x ^^^ rotr32 25 x

/-- SHA-256 `σ0`. -/
def smallSigma0 (x : Nat) : Nat := rotr32 7 x ^^^ rotr32 18 x ^^^ x / 2 ^ 3

/-- SHA-256 `σ1`. -/
def smallSigma1 (x : Nat) : Nat := rotr32 17 x ^^^ rotr32 19 x ^^^ x / 2 ^ 10

/-- The 64 SHA-256 round constants. -/
def shaK : List Nat :=
  [1116352408, 1899447441, 3049323471, 3921009573,
   961987163, 1508970993, 2453635748, 2870763221,
   3624381080, 310598401, 607225278, 1426881987,
   1925078388, 2162078206, 2614888103, 3248222580,
   3835390401, 4022224774, 264347078, 604807628,
   770255983, 1249150122, 1555081692, 1996064986,
   2554220882, 2821834349, 2952996808, 3210313671,
   3336571891, 3584528711, 113926993, 338241895,
   666307205, 773529912, 1294757372, 1396182291,
   1695183700, 1986661051, 2177026350, 2456956037,
   2730485921, 2820302411, 3259730800, 3345764771,
   3516065817, 3600352804, 4094571909, 275423344,
   430227734, 506948616, 659060556, 883997877,
   958139571, 1322822218, 1537002063, 1747873779,
   1955562222, 2024104815, 2227730452, 2361852424,
   2428436474, 2756734187, 3204031479, 3329325298]

/-- The SHA-256 initial hash value. -/
def shaH0 : List Nat :=
  [1779033703, 3144134277, 1013904242, 2773480762,
   1359893119, 2600822924, 528734635, 1541459225]

/-- The eight working registers of the compression function. -/
structure SHAState where
  a : Nat
  b : Nat
  c : Nat
  d : Nat
  e : Nat
  f : Nat
  g : Nat
  h : Nat

/-- The `n` bytes of `v`, big-endian (most significant first). -/
def beBytes : Nat → Nat → List Nat
  | 0, _ => []
  | n + 1, v => beBytes n (v / 256) ++ [v % 256]

/-- Group bytes into big-endian 32-bit words. -/
def bytesToWords : List Nat → List Nat
  | b1 :: b2 :: b3 :: b4 :: rest =>
    (((b1 * 256 + b2) * 256 + b3) * 256 + b4) :: bytesToWords rest
  | _ => []

/-- Extend the 16-word message schedule by `n` further words. -/
def extendSchedule : List Nat → Nat → List Nat
  | w, 0 => w
  | w, n + 1 =>
    let m := w.length
    extendSchedule
      (w ++ [(smallSigma1 (w.getD (m - 2) 0) + w.getD (m - 7) 0 +
              smallSigma0 (w.getD (m - 15) 0) + w.getD (m - 16) 0) % M32]) n

/-- One round of the SHA-256 compression function. -/
def shaRound (s : SHAState) (k w : Nat) : SHAState :=
  let t1 := (s.h + bigSigma1 s.e + shaCh s.e s.f s.g + k + w) % M32
  let t2 := (bigSigma0 s.a + shaMaj s.a s.b s.c) % M32
  { a := (t1 + t2) % M32, b := s.a, c := s.b, d := s.c,
    e := (s.d + t1) % M32, f := s.e, g := s.f, h := s.g }

/-- Compress one 64-byte block into the running hash value. -/
def shaCompress (hs block : List Nat) : List Nat :=
  let w := extendSchedule (bytesToWords block) 48
  let s0 : SHAState :=
    ⟨hs.getD 0 0, hs.getD 1 0, hs.getD 2 0, hs.getD 3 0,
     hs.getD 4 0, hs.getD 5 0, hs.getD 6 0, hs.getD 7 0⟩
  let s := (shaK.zip w).foldl (fun s kw => shaRound s kw.1 kw.2) s0
  [(hs.getD 0 0 + s.a) % M32, (hs.getD 1 0 + s.b) % M32,
   (hs.getD 2 0 + s.c) % M32, (hs.getD 3 0 + s.d) % M32,
   (hs.getD 4 0 + s.e) % M32, (hs.getD 5 0 + s.f) % M32,
   (hs.getD 6 0 + s.g) % M32, (hs.getD 7 0 + s.h) % M32]

/-- SHA-256 padding: `0x80`, zeros to 56 mod 64, then the bit length in
8 big-endian bytes. -/
def shaPad (msg : List Nat) : List Nat :=
  msg ++ 128 :: List.replicate ((119 - msg.length % 64) % 64) 0 ++
    beBytes 8 (8 * msg.length)

/-- Split into 64-byte blocks, with a structural fuel argument (one block
consumes at least one byte, so `l.length` fuel is always enough). -/
def chunkBlocksAux : Nat → List Nat → List (List Nat)
  | 0, _ => []
  | _, [] => []
  | fuel + 1, b :: rest => ((b :: rest).take 64) :: chunkBlocksAux fuel ((b :: rest).drop 64)

/-- Split a (64-divisible) byte list into 64-byte blocks. -/
def chunkBlocks (l : List Nat) : List (List Nat) := chunkBlocksAux l.length l

/-- SHA-256 of a byte list, as 32 bytes. -/
def sha256 (msg : List Nat) : List Nat :=
  (((chunkBlocks (shaPad msg)).foldl shaCompress shaH0).map (beBytes 4)).flatten

/-- HMAC-SHA256 (Go `crypto/hmac` with `sha256.New`): block size 64,
`ipad = 0x36`, `opad = 0x5c`, keys longer than a block are hashed first. -/
def hmacSha256 (key msg : List Nat) : List Nat :=
  let k0 := if 64 < key.length then sha256 key ++ List.replicate 32 0
            else key ++ List.replicate (64 - key.length) 0
  sha256 ((k0.map (fun b => b ^^^ 92)) ++ sha256 ((k0.map (fun b => b ^^^ 54)) ++ msg))

/-! ### base64url with padding (Go's `base64.URLEncoding`) -/

/-- The base64url alphabet. -/
def b64UrlAlphabet : List Char :=
  "ABCDEFGHIJKLMNOPQRSTUVWXYZabcdefghijklmnopqrstuvwxyz0123456789-_".data

/-- The character encoding a 6-bit value. -/
def b64Char (v : Nat) : Char := b64UrlAlphabet.getD v '='

/-- The 6-bit value of an alphabet character (`none` for anything else,
including `=`). -/
def b64Dec (c : Char) : Option Nat := b64UrlAlphabet.findIdx? (fun x => x = c)

/-- Model of `base64.URLEncoding.EncodeToString`: 3-byte groups to 4 characters,
`=`-padded. -/
def base64urlEncode : List Nat → List Char
  | [] => []
  | [b1] => [b64Char (b1 / 4), b64Char (b1 % 4 * 16), '=', '=']
  | [b1, b2] =>
    [b64Char (b1 / 4), b64Char (b1 % 4 * 16 + b2 / 16), b64Char (b2 % 16 * 4), '=']
  | b1 :: b2 :: b3 :: rest =>
    b64Char (b1 / 4) :: b64Char (b1 % 4 * 16 + b2 / 16) ::
    b64Char (b2 % 16 * 4 + b3 / 64) :: b64Char (b3 % 64) :: base64urlEncode rest

/-- Decode 4-character groups; `=` padding is accepted only at the very end,
and (like Go's non-`Strict` decoder) non-zero trailing bits are ignored. -/
def base64urlDecodeGroups : List Char → Option (List Nat)
  | [] => some []
  | c1 :: c2 :: c3 :: c4 :: rest =>
    match b64Dec c1, b64Dec c2 with
    | some v1, some v2 =>
      if c3 = '=' then
        if c4 = '=' ∧ rest = [] then some [v1 * 4 + v2 / 16] else none
      else
        match b64Dec c3 with
        | some v3 =>
          if c4 = '=' then
            if rest = [] then some [v1 * 4 + v2 / 16, v2 % 16 * 16 + v3 / 4]
            else none
          else
            match b64Dec c4 with
            | some v4 =>
              match base64urlDecodeGroups rest with
              | some tail =>
                some ((v1 * 4 + v2 / 16) :: (v2 % 16 * 16 + v3 / 4) ::
                      (v3 % 4 * 64 + v4) :: tail)
              | none => none
            | none => none
        | none => none
    | _, _ => none
  | _ => none

/-- Model of `base64.URLEncoding.DecodeString` (which additionally skips `\r`/`\n`). -/
def base64urlDecode (cs : List Char) : Option (List Nat) :=
  base64urlDecodeGroups (cs.filter (fun c => c != '\r' && c != '\n'))

/-! ### Decimal formatting and Go's `strconv.ParseInt(s, 10, 64)` -/

/-- Decimal digit characters of a positive `Nat`, most significant first,
by structural recursion on a fuel bound (any `fuel ≥ n` gives all digits). -/
def natDecimalCharsAux : Nat → Nat → List Char
  | 0, _ => []
  | _, 0 => []
  | fuel + 1, n + 1 =>
    natDecimalCharsAux fuel ((n + 1) / 10) ++ [Char.ofNat (48 + (n + 1) % 10)]

/-- Decimal digits of a `Nat`, most significant first (`fmt.Sprintf("%d", n)`). -/
def natDecimalChars (n : Nat) : List Char :=
  if n = 0 then ['0'] else natDecimalCharsAux n n

/-- Decimal rendering of an `Int` (`fmt.Sprintf("%d", i)` for `int64`). -/
def intDecimalChars : Int → List Char
  | .ofNat n => natDecimalChars n
  | .negSucc m => '-' :: natDecimalChars (m + 1)

/-- The value of an ASCII digit byte. -/
def digitVal (b : Nat) : Option Nat :=
  if 48 ≤ b ∧ b ≤ 57 then some (b - 48) else none

/-- Accumulate decimal digit bytes; fails on any non-digit. -/
def parseDigitsAux : List Nat → Nat → Option Nat
  | [], acc => some acc
  | b :: rest, acc =>
    match digitVal b with
    | some d => parseDigitsAux rest (acc * 10 + d)
    | none => none

/-- Constant `math.MaxInt64`. -/
def maxInt64Nat : Nat := 9223372036854775807

/-- Go `strconv.ParseInt(s, 10, 64)` on a byte string: optional sign, at
least one digit, all digits, magnitude within `int64` range. -/
def parseInt64 : List Nat → Option Int
  | [] => none
  | b :: rest =>
    if b = 43 then
      if rest = [] then none
      else
        match parseDigitsAux rest 0 with
        | some n => if n ≤ maxInt64Nat then some (Int.ofNat n) else none
        | none => none
    else if b = 45 then
      if rest = [] then none
      else
        match parseDigitsAux rest 0 with
        | some n => if n ≤ maxInt64Nat + 1 then some (- Int.ofNat n) else none
        | none => none
    else
      match parseDigitsAux (b :: rest) 0 with
      | some n => if n ≤ maxInt64Nat then some (Int.ofNat n) else none
      | none => none

/-! ### The verification token codec (`generateVerificationToken`,
`validateVerificationToken` in `auth.go`) -/

/-- The hard-coded token secret of `auth.go`. -/
def verificationTokenSecret : String := "email-verification-secret"

/-- The secret's bytes (it is ASCII). -/
def verificationTokenSecretBytes : List Nat :=
  verificationTokenSecret.data.map Char.toNat

/-- The payload string `"{userID}.{expiry}"` with `expiry = now + 24h`. -/
def tokenPayloadChars (userID now : Int) : List Char :=
  intDecimalChars userID ++ '.' :: intDecimalChars (now + VerificationTokenExpirySec)

/-- The payload's bytes (digits, `-`, and `.` are ASCII). -/
def tokenPayloadBytes (userID now : Int) : List Nat :=
  (tokenPayloadChars userID now).map Char.toNat

/-- The base64url-encoded HMAC-SHA256 signature of the payload. -/
def tokenSignatureChars (userID now : Int) : List Char :=
  base64urlEncode (hmacSha256 verificationTokenSecretBytes (tokenPayloadBytes userID now))

/-- Function `generateVerificationToken` from `auth.go`:
`base64url(payload) + "." + base64url(HMAC-SHA256(secret, payload))`,
with `time.Now()` passed in as `now`. -/
def generateVerificationToken (userID now : Int) : String :=
  String.mk (base64urlEncode (tokenPayloadBytes userID now) ++
             '.' :: tokenSignatureChars userID now)

/-- Function `validateVerificationToken` from `auth.go`, with `time.Now().Unix()`
passed in as `now`.  The payload is split on the byte 46 (`.`), exactly as
Go's `strings.Split` works bytewise on `string(payloadBytes)`. -/
def validateVerificationToken (token : String) (now : Int) : Except String Int :=
  match token.data.splitOn '.' with
  | [encodedPayload, providedSignature] =>
    match base64urlDecode encodedPayload with
    | none => .error "invalid token encoding"
    | some payloadBytes =>
      if providedSignature =
          base64urlEncode (hmacSha256 verificationTokenSecretBytes payloadBytes) then
        match payloadBytes.splitOn 46 with
        | [userField, expiryField] =>
          match parseInt64 userField with
          | none => .error "invalid user ID in token"
          | some userID =>
            match parseInt64 expiryField with
            | none => .error "invalid expiry in token"
            | some expiry =>
              if expiry < now then .error "token expired" else .ok userID
        | _ => .error "invalid payload format"
      else .error "invalid token signature"
  | _ => .error "invalid token format"

/-! ### SignUp and the VerifyEmail paths -/

/-- Function `authService.SignUp` from `auth.go`, line by line. -/
def signUp (env : AuthEnv) (input : SignUpInput) : Except AuthError SignUpResult :=
  match SignUpInput.validate input with
  | some e => .error e
  | none =>
    let email := normalizeEmail input.email
    match env.getUserByEmail email with
    | .ok _ => .error .emailExists
    | .error .notFound =>
      (match env.bcryptHash input.password with
       | .error msg => .error (.wrapped "failed to hash password" (.other msg))
       | .ok passwordHash =>
         match env.createUser email (goTrimSpace input.firstName) (goTrimSpace input.lastName) "entrant" with
         | .error e => .error (.wrapped "failed to create user" e)
         | .ok user =>
           match env.createCredentials user.id passwordHash with
           | .error e => .error (.wrapped "failed to create credentials" e)
           | .ok _ =>
             .ok { user := user,
                   verificationCode := generateVerificationToken user.id env.now })
    | .error e => .error (.wrapped "failed to check email existence" e)

/-- The credential table, keyed by `user_id`. -/
def CredDB : Type := Int → Option AuthCredential

/-- The `VerifyEmail` sqlc query:
`UPDATE auth_credentials SET email_verified_at = NOW() WHERE user_id = $1`.
It is an `:exec` statement run through pgx `Exec`, so an update matching
zero rows is not an error; infrastructure failures are outside this model. -/
def dbVerifyEmail (db : CredDB) (now userID : Int) : CredDB :=
  fun uid =>
    if uid = userID then (db uid).map (fun c => { c with emailVerifiedAt := some now })
    else db uid

/-- Function `authService.VerifyEmail`: delegates to `authRepository.VerifyEmail`,
which runs the `VerifyEmail` query. -/
def serviceVerifyEmail (db : CredDB) (now userID : Int) : CredDB :=
  dbVerifyEmail db now userID

/-- Function `authService.VerifyEmailByToken`: any token-validation failure becomes
`ErrInvalidVerificationCode`; on success the unconditional update runs with
the decoded user id. -/
def verifyEmailByToken (db : CredDB) (now : Int) (token : String) :
    Except AuthError CredDB :=
  match validateVerificationToken token now with
  | .error _ => .error .invalidVerificationCode
  | .ok userID => .ok (serviceVerifyEmail db now userID)

/-! ### Decidability and concrete fixtures used by the witnesses -/

/-- Decidable equality for `Except`, used to evaluate runs on concrete
fixtures. -/
instance {ε α : Type} [DecidableEq ε] [DecidableEq α] : DecidableEq (Except ε α)
  | .ok a, .ok b =>
    if h : a = b then isTrue (by rw [h]) else isFalse (by simp [h])
  | .error a, .error b =>
    if h : a = b then isTrue (by rw [h]) else isFalse (by simp [h])
  | .ok _, .error _ => isFalse (by simp)
  | .error _, .ok _ => isFalse (by simp)

/-- A concrete registered user, for witnesses. -/
def entrantUser : User :=
  { id := 1, email := "user@example.com", firstName := "Ada", lastName := "L",
    role := "entrant" }

/-- A concrete verified credential row for `entrantUser`, for witnesses. -/
def baseCreds : AuthCredential :=
  { userId := 1, passwordHash := "stored-hash", emailVerifiedAt := some 500,
    lastLoginAt := none, failedLoginAttempts := 0, lockedUntil := none }

/-- A concrete store in which `user@example.com` is the only account, the
stored hash matches exactly the password "correct horse", and bookkeeping
calls succeed. -/
def baseEnv : AuthEnv :=
  { getUserByEmail := fun e =>
      if e = "user@example.com" then .ok entrantUser else .error .notFound
    getCredentialsByUserID := fun uid =>
      if uid = 1 then .ok baseCreds else .error .notFound
    isAccountLocked := fun _ => .ok false
    incrementFailedAttempts := fun _ => none
    lockAccount := fun _ _ => none
    updateLastLogin := fun _ => none
    createUser := fun e fn ln r =>
      .ok { id := 2, email := e, firstName := fn, lastName := ln, role := r }
    createCredentials := fun uid hsh =>
      .ok { baseCreds with userId := uid, passwordHash := hsh }
    bcryptMatch := fun hsh pw => hsh == "stored-hash" && pw == "correct horse"
    bcryptHash := fun _ => .ok "stored-hash"
    now := 1000 }




/-- A variant of `baseCreds` with four failed login attempts. -/
def credsFour : AuthCredential := { baseCreds with failedLoginAttempts := 4 }

/-- A variant of `baseEnv` whose credential row has four failed attempts. -/
def envFourFailures : AuthEnv :=
  { baseEnv with getCredentialsByUserID := fun uid =>
      if uid = 1 then .ok credsFour else .error .notFound }

/-- A sign-in attempt with the registered email and a wrong password. -/
def inputWrong : SignInInput :=
  { email := "user@example.com", password := "wrong", rememberMe := false }

/-- A sign-in attempt with the registered email and the correct password. -/
def inputRight : SignInInput :=
  { email := "user@example.com", password := "correct horse", rememberMe := true }

/-- A credential row locked until time 2000. -/
def credsLocked : AuthCredential := { baseCreds with lockedUntil := some 2000 }

/-- A store whose credential row is locked until 2000 (clock at 1000), and
whose lock check answers exactly as the `IsAccountLocked` SQL query. -/
def envLocked : AuthEnv :=
  { baseEnv with
    getCredentialsByUserID := fun uid =>
      if uid = 1 then .ok credsLocked else .error .notFound
    isAccountLocked := fun _ => .ok (isAccountLockedQuery credsLocked.lockedUntil 1000) }

/-- A credential row whose email is not verified. -/
def credsUnverified : AuthCredential := { baseCreds with emailVerifiedAt := none }

/-- A store whose credential row is unverified. -/
def envUnverified : AuthEnv :=
  { baseEnv with
    getCredentialsByUserID := fun uid =>
      if uid = 1 then .ok credsUnverified else .error .notFound }

/-- A well-formed sign-up request whose normalized email is already
registered in `baseEnv`. -/
def inputSignUpTaken : SignUpInput :=
  { email := "User@example.com", password := "longenough1",
    firstName := "Ada", lastName := "L" }

/-- A sign-up request with a registered email but a too-short password. -/
def inputSignUpShort : SignUpInput :=
  { email := "user@example.com", password := "short",
    firstName := "Ada", lastName := "L" }

/-- A sign-in attempt with an unregistered email. -/
def inputNobody : SignInInput :=
  { email := "nobody@example.com", password := "x", rememberMe := false }

/-- A credential table holding exactly the row of user 1. -/
def dbOne : CredDB := fun uid => if uid = 1 then some baseCreds else none

/-- A concrete token for user 7, generated at time 0 (so with expiry 86400). -/
def tokenSeven : String := generateVerificationToken 7 0

/-- Spec-side token validity checker, transcribing the claim's conditions
verbatim: the token splits into exactly two dot-separated segments, the
first segment base64url-decodes, the recomputed HMAC-SHA256 over the
decoded payload equals the second segment, the payload splits into exactly
two integer fields, and the encoded expiry is STRICTLY after the current
time.  Returns the encoded user id when all conditions hold. -/
def tokenValidSpecStrict (token : String) (now : Int) : Option Int :=
  match token.data.splitOn '.' with
  | [encodedPayload, providedSignature] =>
    match base64urlDecode encodedPayload with
    | none => none
    | some payloadBytes =>
      if providedSignature =
          base64urlEncode (hmacSha256 verificationTokenSecretBytes payloadBytes) then
        match payloadBytes.splitOn 46 with
        | [userField, expiryField] =>
          match parseInt64 userField, parseInt64 expiryField with
          | some userID, some expiry => if now < expiry then some userID else none
          | _, _ => none
        | _ => none
      else none
  | _ => none

/-- Spec-side token validity checker as amended: identical to
`tokenValidSpecStrict` except that the expiry must be AT OR AFTER the
current time (the code rejects only when `now` is strictly past expiry). -/
def tokenValidSpecAmended (token : String) (now : Int) : Option Int :=
  match token.data.splitOn '.' with
  | [encodedPayload, providedSignature] =>
    match base64urlDecode encodedPayload with
    | none => none
    | some payloadBytes =>
      if providedSignature =
          base64urlEncode (hmacSha256 verificationTokenSecretBytes payloadBytes) then
        match payloadBytes.splitOn 46 with
        | [userField, expiryField] =>
          match parseInt64 userField, parseInt64 expiryField with
          | some userID, some expiry => if now ≤ expiry then some userID else none
          | _, _ => none
        | _ => none
      else none
  | _ => none

/-! ## Theorems -/

/-- C1: with the user and credential present, the account not locked, and a
password mismatch, `SignIn` at a failed-attempt count of 4 increments the
counter, locks until `now` plus exactly 15 minutes and returns
`ErrAccountLocked`; at a count of 0..3 it increments the counter, does not
lock, and returns `ErrInvalidCredentials`. -/
theorem signIn_fifth_failure_locks_earlier_failures_do_not
    (env : AuthEnv) (input : SignInInput) (user : User) (creds : AuthCredential)
    (hval : SignInInput.validate input = none)
    (hu : env.getUserByEmail (normalizeEmail input.email) = .ok user)
    (hc : env.getCredentialsByUserID user.id = .ok creds)
    (hl : env.isAccountLocked user.id = .ok false)
    (hm : env.bcryptMatch creds.passwordHash input.password = false) :
    (creds.failedLoginAttempts = 4 →
      (signIn env input).1 = .error .accountLocked ∧
      AuthCall.incrementFailed user.id ∈ (signIn env input).2 ∧
      AuthCall.lockAccount user.id (env.now + AccountLockoutDurationSec) ∈
        (signIn env input).2) ∧
    (0 ≤ creds.failedLoginAttempts → creds.failedLoginAttempts ≤ 3 →
      (signIn env input).1 = .error .invalidCredentials ∧
      AuthCall.incrementFailed user.id ∈ (signIn env input).2 ∧
      ∀ t, AuthCall.lockAccount user.id t ∉ (signIn env input).2) := by
  constructor
  · intro h4
    simp only [signIn, hval, hu, hc, hl, hm, h4]
    norm_num [MaxLoginAttempts]
  · intro h0 h3
    have hcond : ¬ (MaxLoginAttempts ≤ creds.failedLoginAttempts + 1) := by
      simp only [MaxLoginAttempts]; omega
    simp only [signIn, hval, hu, hc, hl, hm]
    rw [if_neg hcond]
    simp

/-- Witness for C1 at a concrete store whose credential row has four failed
attempts. -/
theorem signIn_fifth_failure_locks_witness :
    credsFour.failedLoginAttempts = 4 ∧
    ((signIn envFourFailures inputWrong).1 = .error .accountLocked ∧
     AuthCall.incrementFailed 1 ∈ (signIn envFourFailures inputWrong).2 ∧
     AuthCall.lockAccount 1 (1000 + AccountLockoutDurationSec) ∈
       (signIn envFourFailures inputWrong).2) :=
  ⟨by decide,
   (signIn_fifth_failure_locks_earlier_failures_do_not envFourFailures inputWrong
     entrantUser credsFour (by decide) (by decide) (by decide) (by decide)
     (by decide)).1 (by decide)⟩

/-- C2: when the lock check reports the account locked — answering as the
`IsAccountLocked` query does for a `locked_until` that is set and after the
current time — `SignIn` returns `ErrAccountLocked` without ever invoking the
password comparison or the failed-attempt increment. -/
theorem signIn_locked_short_circuits
    (env : AuthEnv) (input : SignInInput) (user : User) (creds : AuthCredential)
    (t : Int)
    (hval : SignInInput.validate input = none)
    (hu : env.getUserByEmail (normalizeEmail input.email) = .ok user)
    (hc : env.getCredentialsByUserID user.id = .ok creds)
    (hlu : creds.lockedUntil = some t)
    (hnow : env.now < t)
    (hl : env.isAccountLocked user.id =
      .ok (isAccountLockedQuery creds.lockedUntil env.now)) :
    (signIn env input).1 = .error .accountLocked ∧
    (∀ hsh pw, AuthCall.compareHash hsh pw ∉ (signIn env input).2) ∧
    (∀ uid, AuthCall.incrementFailed uid ∉ (signIn env input).2) := by
  rw [hlu] at hl
  simp only [isAccountLockedQuery, decide_eq_true hnow] at hl
  simp only [signIn, hval, hu, hc, hl]
  simp

/-- Witness for C2 on a concrete store locked until 2000 with the clock at
1000. -/
theorem signIn_locked_short_circuits_witness :
    (signIn envLocked inputWrong).1 = .error .accountLocked ∧
    (∀ hsh pw, AuthCall.compareHash hsh pw ∉ (signIn envLocked inputWrong).2) ∧
    (∀ uid, AuthCall.incrementFailed uid ∉ (signIn envLocked inputWrong).2) :=
  signIn_locked_short_circuits envLocked inputWrong entrantUser credsLocked 2000
    (by decide) (by decide) (by decide) (by decide) (by decide) (by decide)

/-- C5: the three authentication-failure causes — unknown email, missing
credential row, and password mismatch below the lockout threshold — all
return the identical `ErrInvalidCredentials`, while any other store error
from the user or credential lookup is propagated wrapped with context and
is not `ErrInvalidCredentials`. -/
theorem signIn_invalid_credentials_indistinguishable
    (env : AuthEnv) (input : SignInInput)
    (hval : SignInInput.validate input = none) :
    (env.getUserByEmail (normalizeEmail input.email) = .error .notFound →
      (signIn env input).1 = .error .invalidCredentials) ∧
    (∀ user, env.getUserByEmail (normalizeEmail input.email) = .ok user →
      env.getCredentialsByUserID user.id = .error .notFound →
      (signIn env input).1 = .error .invalidCredentials) ∧
    (∀ user creds, env.getUserByEmail (normalizeEmail input.email) = .ok user →
      env.getCredentialsByUserID user.id = .ok creds →
      env.isAccountLocked user.id = .ok false →
      env.bcryptMatch creds.passwordHash input.password = false →
      creds.failedLoginAttempts + 1 < MaxLoginAttempts →
      (signIn env input).1 = .error .invalidCredentials) ∧
    (∀ msg, env.getUserByEmail (normalizeEmail input.email) = .error (.other msg) →
      (signIn env input).1 = .error (.wrapped "failed to get user" (.other msg)) ∧
      (signIn env input).1 ≠ .error .invalidCredentials) ∧
    (∀ user msg, env.getUserByEmail (normalizeEmail input.email) = .ok user →
      env.getCredentialsByUserID user.id = .error (.other msg) →
      (signIn env input).1 = .error (.wrapped "failed to get credentials" (.other msg)) ∧
      (signIn env input).1 ≠ .error .invalidCredentials) := by
  refine ⟨?_, ?_, ?_, ?_, ?_⟩
  · intro hu
    simp only [signIn, hval, hu]
  · intro user hu hc
    simp only [signIn, hval, hu, hc]
  · intro user creds hu hc hl hm hlt
    simp only [signIn, hval, hu, hc, hl, hm]
    rw [if_neg (not_le.mpr hlt)]
    simp
  · intro msg hu
    simp only [signIn, hval, hu]
    simp
  · intro user msg hu hc
    simp only [signIn, hval, hu, hc]
    simp

/-- Witness for C5 on the concrete base store. -/
theorem signIn_invalid_credentials_indistinguishable_witness :
    (baseEnv.getUserByEmail (normalizeEmail inputNobody.email) = .error .notFound →
      (signIn baseEnv inputNobody).1 = .error .invalidCredentials) ∧
    (∀ user, baseEnv.getUserByEmail (normalizeEmail inputNobody.email) = .ok user →
      baseEnv.getCredentialsByUserID user.id = .error .notFound →
      (signIn baseEnv inputNobody).1 = .error .invalidCredentials) ∧
    (∀ user creds,
      baseEnv.getUserByEmail (normalizeEmail inputNobody.email) = .ok user →
      baseEnv.getCredentialsByUserID user.id = .ok creds →
      baseEnv.isAccountLocked user.id = .ok false →
      baseEnv.bcryptMatch creds.passwordHash inputNobody.password = false →
      creds.failedLoginAttempts + 1 < MaxLoginAttempts →
      (signIn baseEnv inputNobody).1 = .error .invalidCredentials) ∧
    (∀ msg, baseEnv.getUserByEmail (normalizeEmail inputNobody.email) =
        .error (.other msg) →
      (signIn baseEnv inputNobody).1 = .error (.wrapped "failed to get user" (.other msg)) ∧
      (signIn baseEnv inputNobody).1 ≠ .error .invalidCredentials) ∧
    (∀ user msg,
      baseEnv.getUserByEmail (normalizeEmail inputNobody.email) = .ok user →
      baseEnv.getCredentialsByUserID user.id = .error (.other msg) →
      (signIn baseEnv inputNobody).1 =
        .error (.wrapped "failed to get credentials" (.other msg)) ∧
      (signIn baseEnv inputNobody).1 ≠ .error .invalidCredentials) :=
  signIn_invalid_credentials_indistinguishable baseEnv inputNobody (by decide)

/-- C9: a store error returned by any of the best-effort bookkeeping
operations (failed-attempt increment, account lock, last-login update)
never changes what `SignIn` returns to the caller. -/
theorem signIn_bookkeeping_errors_never_change_result
    (env : AuthEnv) (input : SignInInput)
    (f : Int → Option RepoError) (g : Int → Int → Option RepoError)
    (k : Int → Option RepoError) :
    (signIn { env with
        incrementFailedAttempts := f
        lockAccount := g
        updateLastLogin := k } input).1 = (signIn env input).1 := rfl

/-- C6: with a matching password but an unset email-verified timestamp,
`SignIn` returns `ErrEmailNotVerified` (not `ErrInvalidCredentials`) and has
invoked the password comparison; conversely, `ErrEmailNotVerified` is only
ever returned after the stored hash matched the supplied password. -/
theorem signIn_email_not_verified_only_after_match :
    (∀ (env : AuthEnv) (input : SignInInput) (user : User) (creds : AuthCredential),
      SignInInput.validate input = none →
      env.getUserByEmail (normalizeEmail input.email) = .ok user →
      env.getCredentialsByUserID user.id = .ok creds →
      env.isAccountLocked user.id = .ok false →
      env.bcryptMatch creds.passwordHash input.password = true →
      creds.emailVerifiedAt = none →
      (signIn env input).1 = .error .emailNotVerified ∧
      (signIn env input).1 ≠ .error .invalidCredentials ∧
      AuthCall.compareHash creds.passwordHash input.password ∈ (signIn env input).2) ∧
    (∀ (env : AuthEnv) (input : SignInInput),
      (signIn env input).1 = .error .emailNotVerified →
      ∃ user creds,
        env.getUserByEmail (normalizeEmail input.email) = .ok user ∧
        env.getCredentialsByUserID user.id = .ok creds ∧
        env.bcryptMatch creds.passwordHash input.password = true ∧
        creds.emailVerifiedAt = none) := by
  constructor
  · intro env input user creds hval hu hc hl hm hv
    simp only [signIn, hval, hu, hc, hl, hm, hv]
    simp
  · intro env input h
    simp only [signIn] at h
    cases hv : SignInInput.validate input with
    | some e =>
      simp only [hv] at h
      simp at h
      subst h
      unfold SignInInput.validate at hv
      split_ifs at hv <;> simp_all
    | none =>
      simp only [hv] at h
      cases hu : env.getUserByEmail (normalizeEmail input.email) with
      | error a =>
        simp only [hu] at h
        cases a <;> simp at h
      | ok user =>
        simp only [hu] at h
        cases hc : env.getCredentialsByUserID user.id with
        | error a =>
          simp only [hc] at h
          cases a <;> simp at h
        | ok creds =>
          simp only [hc] at h
          cases hl : env.isAccountLocked user.id with
          | error a =>
            simp only [hl] at h
            simp at h
          | ok locked =>
            simp only [hl] at h
            cases locked with
            | true => simp at h
            | false =>
              simp only [Bool.false_eq_true, if_false] at h
              cases hb : env.bcryptMatch creds.passwordHash input.password with
              | false =>
                simp only [hb, Bool.false_eq_true, if_false] at h
                split at h <;> simp at h
              | true =>
                simp only [hb, if_true] at h
                cases hv2 : creds.emailVerifiedAt with
                | none => exact ⟨user, creds, rfl, hc, hb, hv2⟩
                | some t =>
                  simp only [hv2] at h
                  simp at h

/-- Witness for C6 on a concrete store with the correct password and an
unverified credential row. -/
theorem signIn_email_not_verified_only_after_match_witness :
    (signIn envUnverified inputRight).1 = .error .emailNotVerified ∧
    (signIn envUnverified inputRight).1 ≠ .error .invalidCredentials ∧
    AuthCall.compareHash credsUnverified.passwordHash inputRight.password ∈
      (signIn envUnverified inputRight).2 :=
  signIn_email_not_verified_only_after_match.1 envUnverified inputRight
    entrantUser credsUnverified (by decide) (by decide) (by decide) (by decide)
    (by decide) (by decide)

/-- C7 counterexample: the email `user@example.com` is registered in
`baseEnv`, yet `SignUp` with that email and the 5-character password
"short" returns the validation error, not `ErrEmailExists` — validation
runs before the email-existence check, so the claim "returns EmailExists
regardless of the supplied password and name values" fails. -/
theorem signUp_email_exists_counterexample :
    baseEnv.getUserByEmail (normalizeEmail inputSignUpShort.email) = .ok entrantUser ∧
    signUp baseEnv inputSignUpShort =
      .error (.invalidInput "password must be at least 8 characters") ∧
    signUp baseEnv inputSignUpShort ≠ .error .emailExists := by
  refine ⟨by decide, by decide, by decide⟩

/-- C7 (amended): for every `SignUp` call that passes input validation and
whose normalized email is already registered, `SignUp` returns
`ErrEmailExists`, regardless of the (valid) password and name values. -/
theorem signUp_registered_email_yields_email_exists
    (env : AuthEnv) (input : SignUpInput) (user : User)
    (hval : SignUpInput.validate input = none)
    (hu : env.getUserByEmail (normalizeEmail input.email) = .ok user) :
    signUp env input = .error .emailExists := by
  simp only [signUp, hval, hu]

/-- Witness for the amended C7 on the concrete base store. -/
theorem signUp_registered_email_yields_email_exists_witness :
    signUp baseEnv inputSignUpTaken = .error .emailExists :=
  signUp_registered_email_yields_email_exists baseEnv inputSignUpTaken
    entrantUser (by decide) (by decide)

/-- C8 counterexample: the `VerifyEmail` update sets
`email_verified_at = NOW()` unconditionally, so a second call at a later
clock reading (time 2, after a first call at time 1) moves the verified
timestamp — it is not left unchanged. -/
theorem verifyEmail_second_call_moves_timestamp :
    (serviceVerifyEmail dbOne 1 1) 1 =
      some { baseCreds with emailVerifiedAt := some 1 } ∧
    (serviceVerifyEmail (serviceVerifyEmail dbOne 1 1) 2 1) 1 =
      some { baseCreds with emailVerifiedAt := some 2 } ∧
    (serviceVerifyEmail (serviceVerifyEmail dbOne 1 1) 2 1) 1 ≠
      (serviceVerifyEmail dbOne 1 1) 1 := by
  refine ⟨by decide, by decide, by decide⟩

/-- C8 (amended): calling `VerifyEmail` twice is safe — the second call
succeeds (the model's update cannot fail) and the credential remains
verified — but the verified timestamp is overwritten with the second
call's clock reading, so it is unchanged only when both calls observe the
same time. -/
theorem verifyEmail_twice_safe_but_retimestamps
    (db : CredDB) (uid t1 t2 : Int) (c : AuthCredential)
    (hc : db uid = some c) :
    (serviceVerifyEmail (serviceVerifyEmail db t1 uid) t2 uid) uid =
      some { c with emailVerifiedAt := some t2 } ∧
    (t2 = t1 →
      (serviceVerifyEmail (serviceVerifyEmail db t1 uid) t2 uid) uid =
        (serviceVerifyEmail db t1 uid) uid) := by
  constructor
  · simp [serviceVerifyEmail, dbVerifyEmail, hc]
  · intro h
    subst h
    simp [serviceVerifyEmail, dbVerifyEmail, hc]

/-- Witness for the amended C8 on the one-row table. -/
theorem verifyEmail_twice_safe_but_retimestamps_witness :
    (serviceVerifyEmail (serviceVerifyEmail dbOne 1 1) 2 1) 1 =
      some { baseCreds with emailVerifiedAt := some 2 } ∧
    ((2 : Int) = 1 →
      (serviceVerifyEmail (serviceVerifyEmail dbOne 1 1) 2 1) 1 =
        (serviceVerifyEmail dbOne 1 1) 1) :=
  verifyEmail_twice_safe_but_retimestamps dbOne 1 1 2 baseCreds (by decide)

/-- C10: a validly signed, unexpired token for a user id with no credential
row still verifies successfully — token validation checks only signature
and expiry, and the `UPDATE ... WHERE user_id = $1` matching zero rows is
not an error — leaving the table unchanged. -/
theorem verifyEmailByToken_missing_account_succeeds
    (db : CredDB) (now : Int) (token : String) (uid : Int)
    (hv : validateVerificationToken token now = .ok uid)
    (hdb : db uid = none) :
    verifyEmailByToken db now token = .ok db := by
  simp only [verifyEmailByToken, hv]
  have hsame : serviceVerifyEmail db now uid = db := by
    funext x
    simp only [serviceVerifyEmail, dbVerifyEmail]
    by_cases hx : x = uid
    · subst hx
      simp [hdb]
    · simp [hx]
  rw [hsame]

set_option maxRecDepth 100000 in
/-- Witness for C10: the token for user 7 (no row in the one-row table)
verifies successfully and leaves the table unchanged. -/
theorem verifyEmailByToken_missing_account_succeeds_witness :
    verifyEmailByToken dbOne 3600 tokenSeven = .ok dbOne :=
  verifyEmailByToken_missing_account_succeeds dbOne 3600 tokenSeven 7
    (by decide) (by decide)

set_option maxRecDepth 100000 in
/-- C3 counterexample: the token generated for user 7 at time 0 carries the
expiry 86400, and validating it at current time 86400 — expiry EQUAL to
now — succeeds, while the claim's conditions (expiry strictly after now)
reject it: the claimed equivalence is false at this input. -/
theorem validate_accepts_expiry_equal_now :
    validateVerificationToken tokenSeven 86400 = .ok 7 ∧
    tokenValidSpecStrict tokenSeven 86400 = none := by
  refine ⟨by decide, by decide⟩

/-- C3 (amended): for every token string and current time, validation
succeeds returning the encoded user id if and only if the token splits
into exactly two dot-separated segments, the first segment
base64url-decodes, the recomputed HMAC-SHA256 over the decoded payload
equals the second segment, the payload splits into exactly two integer
fields, and the encoded expiry is at or after the current time; a token
whose expiry equals the current time is therefore still valid. -/
theorem validate_iff_signature_and_not_expired (token : String) (now uid : Int) :
    validateVerificationToken token now = .ok uid ↔
      tokenValidSpecAmended token now = some uid := by
  unfold validateVerificationToken tokenValidSpecAmended
  repeat' split <;> try simp_all

/-! ### Helper lemmas for the token round trip: base64url inversion,
decimal-printing inversion, and `splitOn` facts -/

theorem b64Dec_b64Char : ∀ v : Nat, v < 64 → b64Dec (b64Char v) = some v := by decide

theorem b64Char_ne : ∀ v : Nat, v < 64 →
    b64Char v ≠ '=' ∧ b64Char v ≠ '.' ∧ b64Char v ≠ '\r' ∧ b64Char v ≠ '\n' := by decide

theorem base64urlEncode_mem (l : List Nat) (hl : ∀ b ∈ l, b < 256) :
    ∀ c ∈ base64urlEncode l, c = '=' ∨ ∃ v, v < 64 ∧ c = b64Char v := by
  induction l using base64urlEncode.induct with
  | case1 => simp [base64urlEncode]
  | case2 b1 =>
    have hb1 : b1 < 256 := hl b1 (by simp)
    intro c hc
    simp only [base64urlEncode, List.mem_cons, List.not_mem_nil, or_false] at hc
    rcases hc with h | h | h | h
    · exact Or.inr ⟨b1 / 4, by omega, h⟩
    · exact Or.inr ⟨b1 % 4 * 16, by omega, h⟩
    · exact Or.inl h
    · exact Or.inl h
  | case3 b1 b2 =>
    have hb1 : b1 < 256 := hl b1 (by simp)
    have hb2 : b2 < 256 := hl b2 (by simp)
    intro c hc
    simp only [base64urlEncode, List.mem_cons, List.not_mem_nil, or_false] at hc
    rcases hc with h | h | h | h
    · exact Or.inr ⟨b1 / 4, by omega, h⟩
    · exact Or.inr ⟨b1 % 4 * 16 + b2 / 16, by omega, h⟩
    · exact Or.inr ⟨b2 % 16 * 4, by omega, h⟩
    · exact Or.inl h
  | case4 b1 b2 b3 rest ih =>
    have hb1 : b1 < 256 := hl b1 (by simp)
    have hb2 : b2 < 256 := hl b2 (by simp)
    have hb3 : b3 < 256 := hl b3 (by simp)
    have hrest : ∀ b ∈ rest, b < 256 := fun b hb => hl b (by simp [hb])
    intro c hc
    simp only [base64urlEncode, List.mem_cons] at hc
    rcases hc with h | h | h | h | h
    · exact Or.inr ⟨b1 / 4, by omega, h⟩
    · exact Or.inr ⟨b1 % 4 * 16 + b2 / 16, by omega, h⟩
    · exact Or.inr ⟨b2 % 16 * 4 + b3 / 64, by omega, h⟩
    · exact Or.inr ⟨b3 % 64, by omega, h⟩
    · exact ih hrest c h

theorem base64urlEncode_not_dot (l : List Nat) (hl : ∀ b ∈ l, b < 256) :
    '.' ∉ base64urlEncode l := by
  intro hc
  rcases base64urlEncode_mem l hl '.' hc with h | ⟨v, hv, h⟩
  · simp at h
  · exact (b64Char_ne v hv).2.1 h.symm

theorem base64urlEncode_no_crlf (l : List Nat) (hl : ∀ b ∈ l, b < 256) :
    (base64urlEncode l).filter (fun c => c != '\r' && c != '\n') =
      base64urlEncode l := by
  apply List.filter_eq_self.mpr
  intro c hc
  rcases base64urlEncode_mem l hl c hc with h | ⟨v, hv, h⟩
  · subst h; decide
  · subst h
    have h1 := (b64Char_ne v hv).2.2.1
    have h2 := (b64Char_ne v hv).2.2.2
    simp [h1, h2]

theorem base64urlDecodeGroups_encode (l : List Nat) (hl : ∀ b ∈ l, b < 256) :
    base64urlDecodeGroups (base64urlEncode l) = some l := by
  induction l using base64urlEncode.induct with
  | case1 => rfl
  | case2 b1 =>
    have hb1 : b1 < 256 := hl b1 (by simp)
    have e1 : b1 / 4 < 64 := by omega
    have e2 : b1 % 4 * 16 < 64 := by omega
    show base64urlDecodeGroups
      [b64Char (b1 / 4), b64Char (b1 % 4 * 16), '=', '='] = some [b1]
    simp only [base64urlDecodeGroups, b64Dec_b64Char _ e1, b64Dec_b64Char _ e2,
      and_self, if_true, Option.some.injEq, List.cons.injEq, and_true, reduceIte]
    omega
  | case3 b1 b2 =>
    have hb1 : b1 < 256 := hl b1 (by simp)
    have hb2 : b2 < 256 := hl b2 (by simp)
    have e1 : b1 / 4 < 64 := by omega
    have e2 : b1 % 4 * 16 + b2 / 16 < 64 := by omega
    have e3 : b2 % 16 * 4 < 64 := by omega
    show base64urlDecodeGroups
      [b64Char (b1 / 4), b64Char (b1 % 4 * 16 + b2 / 16), b64Char (b2 % 16 * 4), '=']
      = some [b1, b2]
    simp only [base64urlDecodeGroups, b64Dec_b64Char _ e1, b64Dec_b64Char _ e2,
      b64Dec_b64Char _ e3, (b64Char_ne _ e3).1, and_self, if_true, if_false,
      Option.some.injEq, List.cons.injEq, and_true, reduceIte]
    omega
  | case4 b1 b2 b3 rest ih =>
    have hb1 : b1 < 256 := hl b1 (by simp)
    have hb2 : b2 < 256 := hl b2 (by simp)
    have hb3 : b3 < 256 := hl b3 (by simp)
    have hrest : ∀ b ∈ rest, b < 256 := fun b hb => hl b (by simp [hb])
    have e1 : b1 / 4 < 64 := by omega
    have e2 : b1 % 4 * 16 + b2 / 16 < 64 := by omega
    have e3 : b2 % 16 * 4 + b3 / 64 < 64 := by omega
    have e4 : b3 % 64 < 64 := by omega
    show base64urlDecodeGroups
      (b64Char (b1 / 4) :: b64Char (b1 % 4 * 16 + b2 / 16) ::
       b64Char (b2 % 16 * 4 + b3 / 64) :: b64Char (b3 % 64) ::
       base64urlEncode rest) = some (b1 :: b2 :: b3 :: rest)
    simp only [base64urlDecodeGroups, b64Dec_b64Char _ e1, b64Dec_b64Char _ e2,
      b64Dec_b64Char _ e3, b64Dec_b64Char _ e4, (b64Char_ne _ e3).1,
      (b64Char_ne _ e4).1, if_false, ih hrest,
      Option.some.injEq, List.cons.injEq, and_true, reduceIte]
    omega

theorem base64urlDecode_encode (l : List Nat) (hl : ∀ b ∈ l, b < 256) :
    base64urlDecode (base64urlEncode l) = some l := by
  unfold base64urlDecode
  rw [base64urlEncode_no_crlf l hl, base64urlDecodeGroups_encode l hl]

theorem natDecimalCharsAux_eq_digits :
    ∀ fuel n, n ≤ fuel →
      natDecimalCharsAux fuel n =
        ((Nat.digits 10 n).reverse).map (fun d => Char.ofNat (48 + d)) := by
  intro fuel
  induction fuel with
  | zero =>
    intro n hn
    have : n = 0 := by omega
    subst this
    simp [natDecimalCharsAux]
  | succ fuel ih =>
    intro n hn
    match n with
    | 0 => simp [natDecimalCharsAux]
    | m + 1 =>
      rw [natDecimalCharsAux, ih ((m + 1) / 10) (by omega),
          Nat.digits_def' (by norm_num : (1 : Nat) < 10) (Nat.succ_pos m)]
      simp [List.reverse_cons]

theorem natDecimalChars_toNat_digits (n : Nat) :
    ∀ c ∈ natDecimalChars n, 48 ≤ c.toNat ∧ c.toNat ≤ 57 := by
  intro c hc
  unfold natDecimalChars at hc
  by_cases h0 : n = 0
  · subst h0
    simp at hc
    subst hc
    decide
  · rw [if_neg h0, natDecimalCharsAux_eq_digits n n le_rfl] at hc
    simp only [List.mem_map, List.mem_reverse] at hc
    obtain ⟨d, hd, rfl⟩ := hc
    have hdlt : d < 10 := Nat.digits_lt_base (by norm_num) hd
    interval_cases d <;> decide

theorem parseDigitsAux_append (l1 l2 : List Nat) (acc : Nat) :
    parseDigitsAux (l1 ++ l2) acc =
      match parseDigitsAux l1 acc with
      | some m => parseDigitsAux l2 m
      | none => none := by
  induction l1 generalizing acc with
  | nil => simp [parseDigitsAux]
  | cons b l1 ih =>
    simp only [List.cons_append, parseDigitsAux]
    cases digitVal b with
    | none => rfl
    | some d => exact ih (acc * 10 + d)

theorem foldl_digits_step (L : List Nat) (acc : Nat) :
    L.foldl (fun a d => a * 10 + d) acc =
      acc * 10 ^ L.length + Nat.ofDigits 10 L.reverse := by
  induction L generalizing acc with
  | nil => simp [Nat.ofDigits]
  | cons d L ih =>
    simp only [List.foldl_cons, List.reverse_cons, List.length_cons]
    rw [ih, Nat.ofDigits_append]
    simp only [List.length_reverse]
    have : Nat.ofDigits 10 [d] = d := by simp [Nat.ofDigits]
    rw [this]
    ring

theorem parseDigitsAux_digits (L : List Nat) (acc : Nat) (hL : ∀ d ∈ L, d < 10) :
    parseDigitsAux (L.map (fun d => 48 + d)) acc =
      some (L.foldl (fun a d => a * 10 + d) acc) := by
  induction L generalizing acc with
  | nil => simp [parseDigitsAux]
  | cons d L ih =>
    have hd : d < 10 := hL d (by simp)
    have hdv : digitVal (48 + d) = some d := by
      unfold digitVal
      rw [if_pos (by omega)]
      simp
    simp only [List.map_cons, parseDigitsAux, hdv, List.foldl_cons]
    exact ih _ (fun x hx => hL x (by simp [hx]))

theorem parseDigitsAux_natDecimalChars (n : Nat) :
    parseDigitsAux ((natDecimalChars n).map Char.toNat) 0 = some n := by
  by_cases h0 : n = 0
  · subst h0
    decide
  · unfold natDecimalChars
    rw [if_neg h0, natDecimalCharsAux_eq_digits n n le_rfl, List.map_map]
    have hmap : ((Nat.digits 10 n).reverse).map (Char.toNat ∘ fun d => Char.ofNat (48 + d)) =
        ((Nat.digits 10 n).reverse).map (fun d => 48 + d) := by
      apply List.map_congr_left
      intro d hd
      have hdlt : d < 10 := Nat.digits_lt_base (by norm_num) (List.mem_reverse.mp hd)
      simp only [Function.comp_apply]
      interval_cases d <;> decide
    rw [hmap, parseDigitsAux_digits _ _ (by
      intro d hd
      exact Nat.digits_lt_base (by norm_num) (List.mem_reverse.mp hd)),
      foldl_digits_step]
    simp [Nat.ofDigits_digits]

theorem parseInt64_natDecimal (n : Nat) (h : n ≤ maxInt64Nat) :
    parseInt64 ((natDecimalChars n).map Char.toNat) = some ((n : Int)) := by
  obtain ⟨c, cs, hcons⟩ : ∃ c cs, natDecimalChars n = c :: cs := by
    by_cases h0 : n = 0
    · subst h0; exact ⟨'0', [], rfl⟩
    · unfold natDecimalChars
      rw [if_neg h0, natDecimalCharsAux_eq_digits n n le_rfl]
      have : Nat.digits 10 n ≠ [] := Nat.digits_ne_nil_iff_ne_zero.mpr h0
      rcases hrev : (Nat.digits 10 n).reverse with _ | ⟨d, ds⟩
      · exact absurd (by simpa using hrev) this
      · exact ⟨Char.ofNat (48 + d), ds.map (fun d => Char.ofNat (48 + d)), by simp [hrev]⟩
  have hdig := natDecimalChars_toNat_digits n c (by rw [hcons]; simp)
  have hparse := parseDigitsAux_natDecimalChars n
  rw [hcons] at hparse
  rw [hcons]
  simp only [List.map_cons, parseInt64]
  rw [if_neg (show ¬ (c.toNat = 43) by omega),
      if_neg (show ¬ (c.toNat = 45) by omega)]
  simp only [← List.map_cons]
  rw [hparse]
  show (if n ≤ maxInt64Nat then some (Int.ofNat n) else none) = some ((n : Int))
  rw [if_pos h]
  rfl

theorem beBytes_lt (n v : Nat) : ∀ b ∈ beBytes n v, b < 256 := by
  induction n generalizing v with
  | zero => simp [beBytes]
  | succ n ih =>
    intro b hb
    simp only [beBytes, List.mem_append, List.mem_singleton] at hb
    rcases hb with hb | hb
    · exact ih _ b hb
    · omega

theorem sha256_lt (msg : List Nat) : ∀ b ∈ sha256 msg, b < 256 := by
  intro b hb
  unfold sha256 at hb
  simp only [List.mem_flatten, List.mem_map] at hb
  obtain ⟨l, ⟨w, hw, rfl⟩, hbl⟩ := hb
  exact beBytes_lt 4 w b hbl

theorem digitBytes_range (n : Nat) :
    ∀ b ∈ (natDecimalChars n).map Char.toNat, 48 ≤ b ∧ b ≤ 57 := by
  intro b hb
  simp only [List.mem_map] at hb
  obtain ⟨c, hc, rfl⟩ := hb
  exact natDecimalChars_toNat_digits n c hc

theorem splitOn_append_cons {α : Type} [BEq α] [LawfulBEq α]
    (xs ys : List α) (sep : α) (hx : sep ∉ xs) :
    (xs ++ sep :: ys).splitOn sep = xs :: ys.splitOn sep := by
  apply List.splitOnP_first
  · intro x hx2
    simp only [beq_iff_eq]
    exact fun h => hx (h ▸ hx2)
  · simp

theorem splitOn_of_not_mem {α : Type} [BEq α] [LawfulBEq α]
    (xs : List α) (sep : α) (hx : sep ∉ xs) :
    xs.splitOn sep = [xs] := by
  apply List.splitOnP_eq_single
  intro x hx2
  simp only [beq_iff_eq]
  exact fun h => hx (h ▸ hx2)

theorem validate_generate_shape (uid T : Int)
    (h0 : 0 ≤ uid) (h1 : uid ≤ (9223372036854775807 : Int))
    (h2 : 0 ≤ T) (h3 : T + VerificationTokenExpirySec ≤ (9223372036854775807 : Int))
    (t : Int) :
    validateVerificationToken (generateVerificationToken uid T) t =
      if T + VerificationTokenExpirySec < t then .error "token expired"
      else .ok uid := by
  obtain ⟨n, rfl⟩ := Int.eq_ofNat_of_zero_le h0
  have hVpos : (0 : Int) ≤ VerificationTokenExpirySec := by
    norm_num [VerificationTokenExpirySec]
  obtain ⟨m, hm⟩ := Int.eq_ofNat_of_zero_le
    (show (0 : Int) ≤ T + VerificationTokenExpirySec by omega)
  have hn : n ≤ maxInt64Nat := by
    have : (n : Int) ≤ (9223372036854775807 : Int) := h1
    simp only [maxInt64Nat]
    exact_mod_cast this
  have hmmax : m ≤ maxInt64Nat := by
    rw [hm] at h3
    simp only [maxInt64Nat]
    exact_mod_cast h3
  have hPC : tokenPayloadChars ((n : Int)) T =
      natDecimalChars n ++ '.' :: natDecimalChars m := by
    unfold tokenPayloadChars
    rw [hm]
    rfl
  have hPB : tokenPayloadBytes ((n : Int)) T =
      (natDecimalChars n).map Char.toNat ++ 46 :: (natDecimalChars m).map Char.toNat := by
    unfold tokenPayloadBytes
    rw [hPC]
    simp only [List.map_append, List.map_cons]
    rfl
  have hbounds : ∀ b ∈ tokenPayloadBytes ((n : Int)) T, b < 256 := by
    rw [hPB]
    intro b hb
    simp only [List.mem_append, List.mem_cons] at hb
    rcases hb with hb | hb | hb
    · have := digitBytes_range n b hb; omega
    · omega
    · have := digitBytes_range m b hb; omega
  have hsig_lt : ∀ b ∈ hmacSha256 verificationTokenSecretBytes
      (tokenPayloadBytes ((n : Int)) T), b < 256 := by
    unfold hmacSha256
    exact sha256_lt _
  have hnodot_sig : '.' ∉ tokenSignatureChars ((n : Int)) T :=
    base64urlEncode_not_dot _ hsig_lt
  have hsplit : (generateVerificationToken ((n : Int)) T).data.splitOn '.' =
      [base64urlEncode (tokenPayloadBytes ((n : Int)) T),
       tokenSignatureChars ((n : Int)) T] := by
    show (base64urlEncode (tokenPayloadBytes ((n : Int)) T) ++
      '.' :: tokenSignatureChars ((n : Int)) T).splitOn '.' = _
    rw [splitOn_append_cons _ _ _ (base64urlEncode_not_dot _ hbounds),
        splitOn_of_not_mem _ _ hnodot_sig]
  have hPsplit : (tokenPayloadBytes ((n : Int)) T).splitOn 46 =
      [(natDecimalChars n).map Char.toNat, (natDecimalChars m).map Char.toNat] := by
    rw [hPB,
        splitOn_append_cons _ _ _ (by
          intro h46
          have := digitBytes_range n 46 h46
          omega),
        splitOn_of_not_mem _ _ (by
          intro h46
          have := digitBytes_range m 46 h46
          omega)]
  simp only [validateVerificationToken, hsplit, base64urlDecode_encode _ hbounds,
    hPsplit, parseInt64_natDecimal n hn, parseInt64_natDecimal m hmmax]
  rw [if_pos (show tokenSignatureChars ((n : Int)) T =
    base64urlEncode (hmacSha256 verificationTokenSecretBytes
      (tokenPayloadBytes ((n : Int)) T)) from rfl)]
  rw [hm]

theorem intDecimalBytes_lt (k : Int) :
    ∀ b ∈ (intDecimalChars k).map Char.toNat, b < 256 := by
  cases k with
  | ofNat n =>
    intro b hb
    have := digitBytes_range n b hb
    omega
  | negSucc m2 =>
    intro b hb
    simp only [intDecimalChars, List.map_cons, List.mem_cons] at hb
    rcases hb with hb | hb
    · subst hb; decide
    · have := digitBytes_range (m2 + 1) b hb
      omega

theorem tokenPayloadBytes_lt (uid T : Int) :
    ∀ b ∈ tokenPayloadBytes uid T, b < 256 := by
  unfold tokenPayloadBytes tokenPayloadChars
  simp only [List.map_append, List.map_cons]
  intro b hb
  simp only [List.mem_append, List.mem_cons] at hb
  rcases hb with hb | hb | hb
  · exact intDecimalBytes_lt uid b hb
  · subst hb; decide
  · exact intDecimalBytes_lt _ b hb

theorem validate_tampered_signature (uid T t : Int) (sig' : List Char)
    (hne : sig' ≠ tokenSignatureChars uid T) :
    ∀ u, validateVerificationToken
        (String.mk (base64urlEncode (tokenPayloadBytes uid T) ++ '.' :: sig')) t ≠
      .ok u := by
  intro u hval
  have hbounds := tokenPayloadBytes_lt uid T
  unfold validateVerificationToken at hval
  rw [show (String.mk (base64urlEncode (tokenPayloadBytes uid T) ++ '.' :: sig')).data
        = base64urlEncode (tokenPayloadBytes uid T) ++ '.' :: sig' from rfl,
      splitOn_append_cons _ _ _ (base64urlEncode_not_dot _ hbounds)] at hval
  rcases hsplit : sig'.splitOn '.' with _ | ⟨x, xs⟩
  · exact absurd hsplit (List.splitOnP_ne_nil _ _)
  · rcases xs with _ | ⟨y, ys⟩
    · have hx : x = sig' := by
        have hi := List.intercalate_splitOn sig' '.'
        rw [hsplit] at hi
        simpa [List.intercalate] using hi
      subst hx
      rw [hsplit] at hval
      simp only [base64urlDecode_encode _ hbounds] at hval
      have hne' : ¬ (x = base64urlEncode (hmacSha256 verificationTokenSecretBytes
          (tokenPayloadBytes uid T))) := hne
      rw [if_neg hne'] at hval
      simp at hval
    · rw [hsplit] at hval
      simp at hval

/-- C4: a verification token generated for a (nonnegative, int64) user id
at time `T` validates successfully at any time up to `T` + 24h and yields
exactly that user id; the same token fails with "token expired" at
`T` + 25h; and any token whose signature segment has been altered (any
signature list other than the genuine one, covering every single-character
alteration) fails validation at every time. -/
theorem token_generate_validate_roundtrip
    (uid T t : Int)
    (h0 : 0 ≤ uid) (h1 : uid ≤ (9223372036854775807 : Int))
    (h2 : 0 ≤ T) (h3 : T + VerificationTokenExpirySec ≤ (9223372036854775807 : Int)) :
    (t ≤ T + VerificationTokenExpirySec →
      validateVerificationToken (generateVerificationToken uid T) t = .ok uid) ∧
    (validateVerificationToken (generateVerificationToken uid T) (T + 25 * 3600) =
      .error "token expired") ∧
    (∀ sig' : List Char, sig' ≠ tokenSignatureChars uid T → ∀ u,
      validateVerificationToken
        (String.mk (base64urlEncode (tokenPayloadBytes uid T) ++ '.' :: sig')) t ≠
      .ok u) := by
  refine ⟨?_, ?_, ?_⟩
  · intro ht
    rw [validate_generate_shape uid T h0 h1 h2 h3 t, if_neg (by omega)]
  · rw [validate_generate_shape uid T h0 h1 h2 h3 _,
        if_pos (by simp only [VerificationTokenExpirySec]; omega)]
  · intro sig' hne u
    exact validate_tampered_signature uid T t sig' hne u

/-- Witness for C4 at user id 42 and generation time 1700000000. -/
theorem token_generate_validate_roundtrip_witness :
    ((1700003600 : Int) ≤ 1700000000 + VerificationTokenExpirySec →
      validateVerificationToken (generateVerificationToken 42 1700000000) 1700003600 =
        .ok 42) ∧
    (validateVerificationToken (generateVerificationToken 42 1700000000)
        (1700000000 + 25 * 3600) = .error "token expired") ∧
    (∀ sig' : List Char, sig' ≠ tokenSignatureChars 42 1700000000 → ∀ u,
      validateVerificationToken
        (String.mk (base64urlEncode (tokenPayloadBytes 42 1700000000) ++ '.' :: sig'))
        1700003600 ≠ .ok u) :=
  token_generate_validate_roundtrip 42 1700000000 1700003600 (by norm_num) (by norm_num)
    (by norm_num) (by norm_num [VerificationTokenExpirySec])
